import Mathlib

/-!
Shallow embedding of the COVID-19 analysis pipeline
(`Library/data_utils.py`, `Library/stats.py`, `Library/advanced_metrics.py`).

Tables are lists of records.  pandas `DataFrame` numeric columns are modelled
with `Int` for the count columns (the CSV counts are integral; `astype(int)`
truncation of upstream floats is not modelled) and `Rat` for coordinates and
derived ratios (IEEE-754 float arithmetic is modelled by exact rational
arithmetic; every concrete value appearing in the claims is exactly
representable, so the modelling is faithful on them).

pandas `groupby(keys)` sorts the distinct keys ascending and emits one output
row per key; this is modelled by `groupKeys` below (distinct keys, sorted with
a stable merge sort) followed by a `map` that aggregates the rows of each
group.

Functions that assign a column to their argument frame without taking a copy
mutate the caller's table.  Every operation is therefore embedded in
state-passing style `List Row → List Row × Output`: the first component is the
caller's table as it stands after the call.
-/

namespace Covid

/-- Calendar date, as carried by `datetime.date` / pandas timestamps. -/
structure Date where
  year : Int
  month : Nat
  day : Nat
deriving DecidableEq, Repr

/-- Boolean linear order on dates: lexicographic on (year, month, day). -/
def dLe (a b : Date) : Bool :=
  decide (a.year < b.year ∨ (a.year = b.year ∧
    (a.month < b.month ∨ (a.month = b.month ∧ a.day ≤ b.day))))

/-- Lexicographic code-point comparison of character lists, the order Python
(and the pandas groupby key sort) applies to strings. -/
def listLe : List Char → List Char → Bool
  | [], _ => true
  | _ :: _, [] => false
  | a :: as, b :: bs =>
    if a.toNat < b.toNat then true
    else if b.toNat < a.toNat then false
    else listLe as bs

/-- Boolean form of the code-point order pandas/Python use on strings. -/
def strLe (a b : String) : Bool := listLe a.data b.data

/-- Boolean order on `Int`, for sorting year keys. -/
def intLe (a b : Int) : Bool := decide (a ≤ b)

theorem dLe_trans : ∀ a b c : Date, dLe a b → dLe b c → dLe a c := by
  intro a b c h1 h2
  simp only [dLe, decide_eq_true_eq] at *
  omega

theorem dLe_total (a b : Date) : dLe a b || dLe b a := by
  simp only [dLe, Bool.or_eq_true, decide_eq_true_eq]
  omega

theorem listLe_cons_iff {x y : Char} {xs ys : List Char} :
    listLe (x :: xs) (y :: ys) = true ↔
      x.toNat < y.toNat ∨ (x.toNat = y.toNat ∧ listLe xs ys = true) := by
  by_cases h1 : x.toNat < y.toNat
  · simp [listLe, h1]
  · by_cases h2 : y.toNat < x.toNat
    · simp only [listLe, if_neg h1, if_pos h2]
      constructor
      · intro h; exact absurd h (by simp)
      · intro h; omega
    · have he : x.toNat = y.toNat := by omega
      simp [listLe, h1, h2, he]

theorem listLe_trans : ∀ a b c : List Char,
    listLe a b → listLe b c → listLe a c := by
  intro a
  induction a with
  | nil => intro b c h1 h2; rfl
  | cons x xs ih =>
    intro b c h1 h2
    cases b with
    | nil => simp [listLe] at h1
    | cons y ys =>
      cases c with
      | nil => simp [listLe] at h2
      | cons z zs =>
        rw [listLe_cons_iff] at h1 h2 ⊢
        rcases h1 with h1 | ⟨he1, h1⟩
        · rcases h2 with h2 | ⟨he2, _⟩
          · exact Or.inl (by omega)
          · exact Or.inl (by omega)
        · rcases h2 with h2 | ⟨he2, h2⟩
          · exact Or.inl (by omega)
          · exact Or.inr ⟨by omega, ih ys zs h1 h2⟩

theorem listLe_total : ∀ a b : List Char, listLe a b || listLe b a := by
  intro a
  induction a with
  | nil => intro b; simp [listLe]
  | cons x xs ih =>
    intro b
    cases b with
    | nil => simp [listLe]
    | cons y ys =>
      simp only [Bool.or_eq_true, listLe_cons_iff]
      rcases Bool.or_eq_true _ _ |>.mp (ih ys) with h | h
      · by_cases hxy : x.toNat = y.toNat
        · exact Or.inl (Or.inr ⟨hxy, h⟩)
        · omega
      · by_cases hxy : x.toNat = y.toNat
        · exact Or.inr (Or.inr ⟨hxy.symm, h⟩)
        · omega

theorem char_toNat_inj {x y : Char} (h : x.toNat = y.toNat) : x = y := by
  cases x
  cases y
  simp only [Char.toNat] at h
  congr 1
  exact UInt32.toNat.inj h

theorem listLe_anti : ∀ a b : List Char, listLe a b → listLe b a → a = b := by
  intro a
  induction a with
  | nil =>
    intro b _ h2
    cases b with
    | nil => rfl
    | cons y ys => simp [listLe] at h2
  | cons x xs ih =>
    intro b h1 h2
    cases b with
    | nil => simp [listLe] at h1
    | cons y ys =>
      rw [listLe_cons_iff] at h1 h2
      rcases h1 with h1 | ⟨he1, h1⟩
      · rcases h2 with h2 | ⟨he2, _⟩ <;> omega
      · rcases h2 with h2 | ⟨he2, h2⟩
        · omega
        · rw [char_toNat_inj he1, ih ys h1 h2]

theorem strLe_trans : ∀ a b c : String, strLe a b → strLe b c → strLe a c := by
  intro a b c h1 h2
  exact listLe_trans _ _ _ h1 h2

theorem strLe_total (a b : String) : strLe a b || strLe b a :=
  listLe_total a.data b.data

theorem intLe_trans : ∀ a b c : Int, intLe a b → intLe b c → intLe a c := by
  intro a b c h1 h2
  simp only [intLe, decide_eq_true_eq] at *
  omega

theorem intLe_total (a b : Int) : intLe a b || intLe b a := by
  simp only [intLe, Bool.or_eq_true, decide_eq_true_eq]
  omega

/-- Lexicographic combination of two boolean orders, for multi-column sort
keys. -/
def pairLe [DecidableEq κ] (le1 : κ → κ → Bool) (le2 : μ → μ → Bool)
    (a b : κ × μ) : Bool :=
  if a.1 = b.1 then le2 a.2 b.2 else le1 a.1 b.1

theorem pairLe_trans [DecidableEq κ] {le1 : κ → κ → Bool}
    {le2 : μ → μ → Bool}
    (t1 : ∀ x y z : κ, le1 x y → le1 y z → le1 x z)
    (anti1 : ∀ x y : κ, le1 x y → le1 y x → x = y)
    (t2 : ∀ x y z : μ, le2 x y → le2 y z → le2 x z) :
    ∀ a b c : κ × μ, pairLe le1 le2 a b → pairLe le1 le2 b c →
      pairLe le1 le2 a c := by
  intro a b c h1 h2
  unfold pairLe at *
  by_cases hab : a.1 = b.1
  · rw [if_pos hab] at h1
    by_cases hbc : b.1 = c.1
    · rw [if_pos hbc] at h2
      rw [if_pos (hab.trans hbc)]
      exact t2 _ _ _ h1 h2
    · rw [if_neg hbc] at h2
      have hac : ¬ a.1 = c.1 := fun h => hbc (hab.symm.trans h)
      rw [if_neg hac, hab]
      exact h2
  · rw [if_neg hab] at h1
    by_cases hbc : b.1 = c.1
    · rw [if_pos hbc] at h2
      have hac : ¬ a.1 = c.1 := fun h => hab (h.trans hbc.symm)
      rw [if_neg hac, ← hbc]
      exact h1
    · rw [if_neg hbc] at h2
      by_cases hac : a.1 = c.1
      · have h2a : le1 b.1 a.1 := by rw [hac]; exact h2
        exact absurd (anti1 _ _ h1 h2a) hab
      · rw [if_neg hac]
        exact t1 _ _ _ h1 h2

theorem pairLe_total [DecidableEq κ] {le1 : κ → κ → Bool}
    {le2 : μ → μ → Bool}
    (tot1 : ∀ x y : κ, le1 x y || le1 y x)
    (tot2 : ∀ x y : μ, le2 x y || le2 y x) :
    ∀ a b : κ × μ, pairLe le1 le2 a b || pairLe le1 le2 b a := by
  intro a b
  unfold pairLe
  by_cases hab : a.1 = b.1
  · rw [if_pos hab, if_pos hab.symm]
    exact tot2 _ _
  · rw [if_neg hab, if_neg (fun h => hab h.symm)]
    exact tot1 _ _

theorem strLe_anti : ∀ x y : String, strLe x y → strLe y x → x = y := by
  intro x y h1 h2
  cases x
  cases y
  exact congrArg String.mk (listLe_anti _ _ h1 h2)

theorem dLe_anti : ∀ x y : Date, dLe x y → dLe y x → x = y := by
  intro x y h1 h2
  simp only [dLe, decide_eq_true_eq] at *
  cases x
  cases y
  simp only [Date.mk.injEq]
  simp only at h1 h2
  omega

theorem intLe_anti : ∀ x y : Int, intLe x y → intLe y x → x = y := by
  intro x y h1 h2
  simp only [intLe, decide_eq_true_eq] at *
  omega

/-- Insert into a sorted list, keeping earlier elements first on ties
(the stable sort pandas applies to groupby keys and multi-column
`sort_values`). -/
def insertLe (le : α → α → Bool) (a : α) : List α → List α
  | [] => [a]
  | b :: bs => if le a b then a :: b :: bs else b :: insertLe le a bs

/-- Stable insertion sort; sorted stable permutations are unique, so this is
exactly the order pandas produces. -/
def insSort (le : α → α → Bool) : List α → List α
  | [] => []
  | a :: as => insertLe le a (insSort le as)

theorem insertLe_perm (le : α → α → Bool) (a : α) (l : List α) :
    List.Perm (insertLe le a l) (a :: l) := by
  induction l with
  | nil => simp [insertLe]
  | cons b bs ih =>
    by_cases h : le a b
    · simp [insertLe, h]
    · simp only [insertLe, if_neg h]
      exact (ih.cons b).trans (List.Perm.swap a b bs)

theorem insSort_perm (le : α → α → Bool) (l : List α) :
    List.Perm (insSort le l) l := by
  induction l with
  | nil => simp [insSort]
  | cons a as ih =>
    exact (insertLe_perm le a (insSort le as)).trans (ih.cons a)

theorem mem_insSort (le : α → α → Bool) (l : List α) (x : α) :
    x ∈ insSort le l ↔ x ∈ l :=
  (insSort_perm le l).mem_iff

theorem pairwise_insertLe {le : α → α → Bool}
    (tot : ∀ x y, le x y || le y x)
    (tr : ∀ x y z, le x y → le y z → le x z)
    (a : α) {l : List α} (h : l.Pairwise (le · ·)) :
    (insertLe le a l).Pairwise (le · ·) := by
  induction l with
  | nil => simp [insertLe]
  | cons b bs ih =>
    rcases List.pairwise_cons.mp h with ⟨hb, hbs⟩
    by_cases hab : le a b
    · simp only [insertLe, if_pos hab]
      refine List.pairwise_cons.mpr ⟨?_, h⟩
      intro x hx
      rcases List.mem_cons.mp hx with rfl | hx
      · exact hab
      · exact tr a b x hab (hb x hx)
    · have hba : le b a := by
        rcases Bool.or_eq_true _ _ |>.mp (tot a b) with h1 | h1
        · exact absurd h1 hab
        · exact h1
      simp only [insertLe, if_neg hab]
      refine List.pairwise_cons.mpr ⟨?_, ih hbs⟩
      intro x hx
      rw [(insertLe_perm le a bs).mem_iff] at hx
      rcases List.mem_cons.mp hx with rfl | hx
      · exact hba
      · exact hb x hx

theorem pairwise_insSort {le : α → α → Bool}
    (tot : ∀ x y, le x y || le y x)
    (tr : ∀ x y z, le x y → le y z → le x z) (l : List α) :
    (insSort le l).Pairwise (le · ·) := by
  induction l with
  | nil => simp [insSort]
  | cons a as ih => exact pairwise_insertLe tot tr a ih

theorem insSort_of_sorted {le : α → α → Bool} :
    ∀ {l : List α}, l.Pairwise (le · ·) → insSort le l = l := by
  intro l
  induction l with
  | nil => intro _; rfl
  | cons a as ih =>
    intro h
    rcases List.pairwise_cons.mp h with ⟨ha, has⟩
    show insertLe le a (insSort le as) = a :: as
    rw [ih has]
    cases as with
    | nil => rfl
    | cons b bs =>
      show (if le a b then a :: b :: bs else b :: insertLe le a bs) = _
      rw [if_pos (ha b (by simp))]

theorem insSort_idem {le : α → α → Bool}
    (tot : ∀ x y, le x y || le y x)
    (tr : ∀ x y z, le x y → le y z → le x z) (l : List α) :
    insSort le (insSort le l) = insSort le l :=
  insSort_of_sorted (pairwise_insSort tot tr l)

/-- The sorted list of distinct keys of a table, as produced by a pandas
`groupby`: one key per group, ascending. -/
def groupKeys [DecidableEq κ] (k : α → κ) (le : κ → κ → Bool)
    (l : List α) : List κ :=
  insSort le ((l.map k).dedup)

theorem mem_groupKeys [DecidableEq κ] (k : α → κ) (le : κ → κ → Bool)
    (l : List α) (c : κ) : c ∈ groupKeys k le l ↔ ∃ r ∈ l, k r = c := by
  simp [groupKeys, mem_insSort, List.mem_dedup]

theorem nodup_groupKeys [DecidableEq κ] (k : α → κ) (le : κ → κ → Bool)
    (l : List α) : (groupKeys k le l).Nodup :=
  (insSort_perm le ((l.map k).dedup)).nodup_iff.mpr (List.nodup_dedup _)

/-- Maximum of an integer list, `0` on the empty list (groups handed to it by
the aggregations are never empty, so the default is never observed there). -/
def maxD (l : List Int) : Int := (l.max?).getD 0

theorem maxD_spec (l : List Int) (hne : l ≠ []) :
    maxD l ∈ l ∧ ∀ x ∈ l, x ≤ maxD l := by
  have h : l.max? = some (maxD l) := by
    cases hm : l.max? with
    | none => exact absurd (List.max?_eq_none_iff.mp hm) hne
    | some a => simp [maxD, hm]
  haveI : Std.Antisymm (fun x1 x2 : Int => x1 ≤ x2) :=
    ⟨by intro x y h1 h2; exact le_antisymm h1 h2⟩
  exact (List.max?_eq_some_iff (fun a : Int => le_refl a)
    (fun a b => max_choice a b) (fun a b c => max_le_iff)).mp h

/-- A record of one daily snapshot CSV after `pd.read_csv`, header
normalisation and column selection (`Province_State`, `Country_Region`,
`Confirmed`, `Deaths`, `Recovered`, `Lat`, `Long_`).  `none` models a null
(NaN) cell; a `Lat`/`Long_` column that is absent from a day's schema is
injected as `0` by the code, which here is a `some 0` cell. -/
structure CsvRow where
  province : Option String
  country : String
  confirmed : Option Int
  deaths : Option Int
  recovered : Option Int
  lat : Option Rat
  long : Option Rat
deriving DecidableEq, Repr

/-- A row of the concatenated raw table produced by `load_all_csvs`:
a `CsvRow` tagged with the report date parsed from its source filename. -/
structure RawRow where
  province : Option String
  country : String
  confirmed : Option Int
  deaths : Option Int
  recovered : Option Int
  lat : Option Rat
  long : Option Rat
  report_date : Date
deriving DecidableEq, Repr

instance {ε α : Type _} [DecidableEq ε] [DecidableEq α] :
    DecidableEq (Except ε α) := fun x y =>
  match x, y with
  | .ok a, .ok b =>
    if h : a = b then isTrue (by rw [h])
    else isFalse (by intro hc; injection hc; contradiction)
  | .ok _, .error _ => isFalse (by intro hc; injection hc)
  | .error _, .ok _ => isFalse (by intro hc; injection hc)
  | .error e, .error f =>
    if h : e = f then isTrue (by rw [h])
    else isFalse (by intro hc; injection hc; contradiction)

/-- `TARGET_COUNTRIES` from `data_utils.py`. -/
def TARGET_COUNTRIES : List String :=
  ["India", "Brazil", "Russia", "United Kingdom", "Egypt", "Italy",
   "South Africa"]

/-- Number of days of a month, Gregorian rules, as `datetime` validates. -/
def daysInMonth (y : Int) (m : Nat) : Nat :=
  if m = 2 then
    if (y % 4 == 0 && y % 100 != 0) || y % 400 == 0 then 29 else 28
  else if m == 4 || m == 6 || m == 9 || m == 11 then 30 else 31

/-- Split a character list at every `'-'` (the behaviour of Python's
`split('-')` / the field separation `strptime` performs for the
`"%m-%d-%Y"` format). -/
def splitDash : List Char → List (List Char)
  | [] => [[]]
  | c :: rest =>
    match splitDash rest with
    | [] => [[]]
    | g :: gs => if c = '-' then [] :: g :: gs else (c :: g) :: gs

/-- Parse a nonempty all-digit character group as a decimal number. -/
def digitsToNat (cs : List Char) : Option Nat :=
  if cs = [] then none
  else if cs.all Char.isDigit then
    some (cs.foldl (fun acc c => acc * 10 + (c.toNat - 48)) 0)
  else none

/-- `datetime.strptime(s, "%m-%d-%Y")` on the filename stem: three dash
separated decimal fields — month and day of one or two digits (CPython
compiles `%m`/`%d` to patterns accepting an optional leading zero), year of
exactly four digits (`%Y` compiles to four mandatory digits) and at least 1
(`datetime` rejects year 0) — forming a valid calendar date.  Returns `none`
where `strptime` (or the `datetime` constructor it calls) raises
`ValueError`. -/
def parseDateToken (s : String) : Option Date :=
  match splitDash s.data with
  | [ms, ds, ys] =>
    match digitsToNat ms, digitsToNat ds, digitsToNat ys with
    | some m, some d, some y =>
      if ms.length ≤ 2 ∧ ds.length ≤ 2 ∧ ys.length = 4 ∧ 1 ≤ y ∧
         1 ≤ m ∧ m ≤ 12 ∧ 1 ≤ d ∧ d ≤ daysInMonth y m then
        some ⟨(y : Int), m, d⟩
      else none
    | _, _, _ => none
  | _ => none

/-- `filename.endswith(".csv")`. -/
def isCsvName (name : String) : Bool :=
  (".csv" : String).data.isSuffixOf name.data

/-- `filename[:-4]`, as the code strips the `.csv` suffix. -/
def stripCsv (name : String) : String :=
  ⟨name.data.take (name.data.length - 4)⟩

/-- One iteration of the `load_all_csvs` loop, folded over the directory
listing (a list of `(filename, parsed CSV rows)` pairs; reading and column
normalisation of a CSV file is I/O and is modelled by handing the loop the
already-structured rows).  Produces the list of per-file frames appended to
`all_data`, or the exception the loop raises on a `.csv` filename whose stem
does not parse as `MM-DD-YYYY`. -/
def loadFold : List (String × List CsvRow) → Except String (List (List RawRow))
  | [] => .ok []
  | (name, rows) :: rest =>
    if !isCsvName name then loadFold rest
    else
      match parseDateToken (stripCsv name) with
      | none =>
        .error ("time data " ++ stripCsv name ++
          " does not match format %m-%d-%Y")
      | some d =>
        if d.year < 2021 ∨ d.year > 2023 then loadFold rest
        else
          match loadFold rest with
          | .error e => .error e
          | .ok tail =>
            .ok (((rows.filter
                (fun r => TARGET_COUNTRIES.contains r.country)).map
                (fun r => ⟨r.province, r.country, r.confirmed, r.deaths,
                  r.recovered, r.lat, r.long, d⟩)) :: tail)

/-- `load_all_csvs` from `data_utils.py`: fold the loop over the listing,
then `pd.concat(all_data, ignore_index=True)` — which raises
`ValueError: No objects to concatenate` when no file survived the
`.csv`/year gates. -/
def load_all_csvs (files : List (String × List CsvRow)) :
    Except String (List RawRow) :=
  match loadFold files with
  | .error e => .error e
  | .ok [] => .error "No objects to concatenate"
  | .ok frames => .ok frames.flatten

/-- The per-row effect of the fill steps of `clean_data`: null province →
"Unknown", null counts → 0 (already integers in this model), null
coordinates → 0. -/
def cleanRow (r : RawRow) : RawRow :=
  { r with
    province := some (r.province.getD "Unknown"),
    confirmed := some (r.confirmed.getD 0),
    deaths := some (r.deaths.getD 0),
    recovered := some (r.recovered.getD 0),
    lat := some (r.lat.getD 0),
    long := some (r.long.getD 0) }

/-- The sort key order of `clean_data`'s
`sort_values(['Country_Region','report_date'], ascending=[True,True])`
(pandas multi-column sorting is a stable lexsort). -/
def rawLe (a b : RawRow) : Bool :=
  pairLe strLe dLe (a.country, a.report_date) (b.country, b.report_date)

/-- `clean_data` from `data_utils.py`: fill nulls, then the stable
two-key sort. -/
def clean_data (df : List RawRow) : List RawRow :=
  insSort rawLe (df.map cleanRow)

/-- A row of the analytic table (the `covid_data` schema the aggregations
consume: country, province, date, the three counts, coordinates).  The two
trailing `Option` fields model the derived `year` / `month_year` columns that
some operations assign onto the caller's frame; a freshly loaded table has
them `none`. -/
structure Row where
  country : String
  province : String
  date : Date
  confirmed_cases : Int
  deaths_cases : Int
  recovered_cases : Int
  latitude : Rat
  longitude : Rat
  year_col : Option Int := none
  month_year_col : Option String := none
deriving DecidableEq, Repr

/-- Round half to even at integer precision (the rounding IEEE/numpy apply;
the claims' concrete values are never ties, where float representation could
otherwise diverge from exact rationals). -/
def rhe (q : Rat) : Int :=
  let f := ⌊q⌋
  let r := q - (f : Rat)
  if r < 1/2 then f else if 1/2 < r then f + 1
  else if f % 2 = 0 then f else f + 1

/-- `Series.round(2)`: round to two decimal places. -/
def round2 (q : Rat) : Rat := ((rhe (q * 100)) : Rat) / 100

/-- Zero-padded two-digit rendering, for `strftime('%m')`. -/
def pad2 (n : Nat) : String :=
  if n < 10 then "0" ++ toString n else toString n

/-- `x.strftime('%Y-%m')` (years of this data set are four-digit). -/
def monthFmt (d : Date) : String := toString d.year ++ "-" ++ pad2 d.month

/-- The column assignment `df['year'] = ...` performed on the caller's frame
by `stats_by_year` and `generate_pivot`. -/
def addYearCol (r : Row) : Row := { r with year_col := some r.date.year }

/-- The column assignment `df['month_year'] = ...` performed on the caller's
frame by `stats_by_month`. -/
def addMonthCol (r : Row) : Row :=
  { r with month_year_col := some (monthFmt r.date) }

/-- Output row of `stats_by_country` and of `stats_by_date_range`. -/
structure CountryStat where
  country : String
  confirmed_cases : Int
  deaths_cases : Int
  recovered_cases : Int
deriving DecidableEq, Repr

/-- Output row of `stats_by_month`. -/
structure MonthStat where
  country : String
  month_year : String
  confirmed_cases : Int
  deaths_cases : Int
  recovered_cases : Int
deriving DecidableEq, Repr

/-- Output row of `stats_by_year`. -/
structure YearStat where
  country : String
  year : Int
  confirmed_cases : Int
  deaths_cases : Int
  recovered_cases : Int
deriving DecidableEq, Repr

/-- Boolean order on `(country, month_year)` keys. -/
def strPairLe : String × String → String × String → Bool :=
  pairLe strLe strLe

/-- Boolean order on `(country, year)` keys. -/
def strIntLe : String × Int → String × Int → Bool :=
  pairLe strLe intLe

/-- Boolean order on `(country, date)` keys. -/
def strDateLe : String × Date → String × Date → Bool :=
  pairLe strLe dLe

/-- `stats_by_country` from `stats.py`: group by country, `max` of each count
column.  The input frame is not written to, so the state component is the
input itself. -/
def stats_by_country (df : List Row) : List Row × List CountryStat :=
  (df,
    (groupKeys Row.country strLe df).map (fun c =>
      let g := df.filter (fun r => r.country == c)
      ⟨c, maxD (g.map Row.confirmed_cases), maxD (g.map Row.deaths_cases),
        maxD (g.map Row.recovered_cases)⟩))

/-- `stats_by_month` from `stats.py`: assigns a `month_year` column onto the
caller's frame (no copy is taken), then groups by (country, month_year) with
`max` of each count column. -/
def stats_by_month (df : List Row) : List Row × List MonthStat :=
  (df.map addMonthCol,
    (groupKeys (fun r => (r.country, monthFmt r.date)) strPairLe df).map
      (fun k =>
        let g := df.filter
          (fun r => r.country == k.1 && monthFmt r.date == k.2)
        ⟨k.1, k.2, maxD (g.map Row.confirmed_cases),
          maxD (g.map Row.deaths_cases), maxD (g.map Row.recovered_cases)⟩))

/-- `stats_by_year` from `stats.py`: assigns a `year` column onto the
caller's frame (no copy is taken), then groups by (country, year) with `max`
of each count column. -/
def stats_by_year (df : List Row) : List Row × List YearStat :=
  (df.map addYearCol,
    (groupKeys (fun r => (r.country, r.date.year)) strIntLe df).map
      (fun k =>
        let g := df.filter
          (fun r => r.country == k.1 && r.date.year == k.2)
        ⟨k.1, k.2, maxD (g.map Row.confirmed_cases),
          maxD (g.map Row.deaths_cases), maxD (g.map Row.recovered_cases)⟩))

/-- The per-country sums of the three counts over the rows at one date
(`df[df['date'] == d].groupby('country')[...].sum().reset_index()`). -/
def buildStatAt (df : List Row) (d : Date) (c : String) : CountryStat :=
  let g := (df.filter (fun r => r.date == d)).filter
    (fun r => r.country == c)
  ⟨c, (g.map Row.confirmed_cases).sum, (g.map Row.deaths_cases).sum,
    (g.map Row.recovered_cases).sum⟩

def dateSums (df : List Row) (d : Date) : List CountryStat :=
  (groupKeys Row.country strLe (df.filter (fun r => r.date == d))).map
    (buildStatAt df d)

/-- `stats_by_date_range` from `stats.py`: per-country sums at the start and
end dates, inner merge on country (the end frame is the left side, so its
key order is kept), end minus start per count column.  The input frame is not
written to. -/
def stats_by_date_range (df : List Row) (s e : Date) :
    List Row × List CountryStat :=
  (df,
    let dfStart := dateSums df s
    let dfEnd := dateSums df e
    dfEnd.filterMap (fun en =>
      (dfStart.find? (fun st => st.country == en.country)).map (fun st =>
        ⟨en.country, en.confirmed_cases - st.confirmed_cases,
          en.deaths_cases - st.deaths_cases,
          en.recovered_cases - st.recovered_cases⟩)))

/-- Output row of `filter_data`: the province column is not part of the
output schema, counts are summed and coordinates averaged per
(country, date). -/
structure FilteredRow where
  country : String
  date : Date
  confirmed_cases : Int
  deaths_cases : Int
  recovered_cases : Int
  latitude : Rat
  longitude : Rat
deriving DecidableEq, Repr

/-- The aggregated output row of `filter_data` for one (country, date)
group: summed counts, averaged coordinates. -/
def buildFilteredAt (df : List Row) (k : String × Date) : FilteredRow :=
  let g := df.filter (fun r => r.country == k.1 && r.date == k.2)
  ⟨k.1, k.2, (g.map Row.confirmed_cases).sum, (g.map Row.deaths_cases).sum,
    (g.map Row.recovered_cases).sum,
    (g.map Row.latitude).sum / (g.length : Rat),
    (g.map Row.longitude).sum / (g.length : Rat)⟩

/-- `filter_data` from `stats.py`: optional year / month / country
predicates (Python truthiness: `None`, `0` and `""` all leave the predicate
unset), then grouping by (country, date) with summed counts and averaged
coordinates.  The in-place `df['date'] = pd.to_datetime(df['date'])` on the
caller's frame re-encodes the date values without changing them, which on
this model of dates is the identity, so the state component is the input. -/
def filter_data (df : List Row) (year : Option Int) (month : Option Nat)
    (country : Option String) : List Row × List FilteredRow :=
  (df,
    let df1 := match year with
      | some y => if y ≠ 0 then df.filter (fun r => r.date.year == y) else df
      | none => df
    let df2 := match month with
      | some m => if m ≠ 0 then df1.filter (fun r => r.date.month == m)
                  else df1
      | none => df1
    let df3 := match country with
      | some c => if c ≠ "" then df2.filter (fun r => r.country == c) else df2
      | none => df2
    (groupKeys (fun r => (r.country, r.date)) strDateLe df3).map
      (buildFilteredAt df3))

/-- The per-(country, year) cell of
`groupby(['country','year'])['confirmed_cases'].max().unstack().fillna(0)`:
the maximum confirmed count of the group, or `0` where the country has no
row in that year. -/
def maxYear (df : List Row) (c : String) (y : Int) : Int :=
  maxD ((df.filter (fun r => r.country == c && r.date.year == y)).map
    Row.confirmed_cases)

/-- The sorted distinct years of the table, i.e. the column index the
`unstack()` produces. -/
def yearsOf (df : List Row) : List Int :=
  groupKeys (fun r => r.date.year) intLe df

/-- Output row of `compare_wave_intensity`.  The three `pct` fields model the
percentage-change columns; `none` stands for the non-finite float
(`inf`/`-inf`/`NaN`) the unguarded division produces when the denominator
year value is `0`. -/
structure WaveRow where
  country : String
  y2021 : Int
  y2022 : Int
  y2023 : Int
  pct_21_22 : Option Rat
  pct_22_23 : Option Rat
  pct_21_23 : Option Rat
deriving DecidableEq, Repr

/-- `(b - a) / a * 100`, rounded to 2 decimals, or the non-finite result
(`none`) when `a = 0`. -/
def pctChange (a b : Int) : Option Rat :=
  if a = 0 then none
  else some (round2 ((((b : Rat) - (a : Rat)) / (a : Rat)) * 100))

/-- `compare_wave_intensity` from `advanced_metrics.py`: copies the frame
(the caller's table is untouched), takes the per-(country, year) maxima of
confirmed cases, unstacks to one column per distinct year present, and then
**positionally** renames the columns to `'2021','2022','2023'` — which raises
a length-mismatch `ValueError` unless the table has exactly three distinct
years.  Percentage-change columns are the unguarded divisions. -/
def waveRowAt (df : List Row) (y1 y2 y3 : Int) (c : String) : WaveRow :=
  let a := maxYear df c y1
  let b := maxYear df c y2
  let g := maxYear df c y3
  ⟨c, a, b, g, pctChange a b, pctChange b g, pctChange a g⟩

def compare_wave_intensity (df : List Row) :
    List Row × Except String (List WaveRow) :=
  (df,
    match yearsOf df with
    | [y1, y2, y3] =>
      .ok ((groupKeys Row.country strLe df).map (waveRowAt df y1 y2 y3))
    | _ =>
      .error "Length mismatch: new column names do not have 3 elements")

/-- Output row of `calculate_rates` (the rates are not rounded by the
code). -/
structure RateRow where
  country : String
  fatality_rate : Rat
  recovery_rate : Rat
deriving DecidableEq, Repr

/-- Arithmetic mean of a list of rationals (callers only apply it to
nonempty groups). -/
def meanQ (l : List Rat) : Rat := l.sum / (l.length : Rat)

/-- `calculate_rates` from `advanced_metrics.py`: copies the frame, keeps
the rows with `confirmed_cases > 0`, forms the per-row percentage ratios and
takes their per-country mean. -/
def rateRowAt (df : List Row) (c : String) : RateRow :=
  let g := (df.filter (fun r => 0 < r.confirmed_cases)).filter
    (fun r => r.country == c)
  ⟨c,
    meanQ (g.map (fun r =>
      ((r.deaths_cases : Rat) / (r.confirmed_cases : Rat)) * 100)),
    meanQ (g.map (fun r =>
      ((r.recovered_cases : Rat) / (r.confirmed_cases : Rat)) * 100))⟩

def calculate_rates (df : List Row) : List Row × List RateRow :=
  (df,
    (groupKeys Row.country strLe
      (df.filter (fun r => 0 < r.confirmed_cases))).map (rateRowAt df))

/-- The rate calculation as the claim words it: discard only the rows whose
`confirmed_cases` is **equal to 0**, then take per-country means of the
per-row ratios.  (Comparison definition for claim C2; the source keeps
`confirmed_cases > 0` instead.) -/
def calculate_rates_claimed (df : List Row) : List RateRow :=
  let kept := df.filter (fun r => !(r.confirmed_cases == 0))
  (groupKeys Row.country strLe kept).map (fun c =>
    let g := kept.filter (fun r => r.country == c)
    ⟨c,
      meanQ (g.map (fun r =>
        ((r.deaths_cases : Rat) / (r.confirmed_cases : Rat)) * 100)),
      meanQ (g.map (fun r =>
        ((r.recovered_cases : Rat) / (r.confirmed_cases : Rat)) * 100))⟩)

/-- The summary `describe()` produces for one numeric column, rounded to two
decimals.  `none` models the NaN entries of an empty (or, for the deviation,
single-row) column.  The code reports the sample standard deviation; being
an irrational square root, it is recorded here by its square `std_sq`
(unrounded), which determines it. -/
structure ColDescribe where
  count : Nat
  mean : Option Rat
  std_sq : Option Rat
  least : Option Rat
  q25 : Option Rat
  q50 : Option Rat
  q75 : Option Rat
  greatest : Option Rat
deriving DecidableEq, Repr

/-- Linear-interpolation percentile of an integer column, as
numpy/`describe()` compute quartiles. -/
def percentileQ (v : List Int) (q : Rat) : Option Rat :=
  match v with
  | [] => none
  | _ =>
    let s := insSort intLe v
    let n := s.length
    let pos : Rat := q * ((n : Rat) - 1)
    let i : Nat := (⌊pos⌋).toNat
    let fr : Rat := pos - (i : Rat)
    let a : Rat := ((s.getD i 0) : Rat)
    let b : Rat := ((s.getD (min (i + 1) (n - 1)) 0) : Rat)
    some (a + fr * (b - a))

/-- `describe()` of one integer column: count, mean, sample deviation
(recorded by its square), min, quartiles, max; all reported entries rounded
to two decimals (the deviation square is kept exact, see `ColDescribe`). -/
def describeCol (v : List Int) : ColDescribe :=
  let n := v.length
  let mu : Rat := meanQ (v.map (fun x => (x : Rat)))
  { count := n
    mean := if n = 0 then none else some (round2 mu)
    std_sq :=
      if 2 ≤ n then
        some ((v.map (fun x => ((x : Rat) - mu) ^ 2)).sum / ((n : Rat) - 1))
      else none
    least := (v.min?).map (fun x => round2 (x : Rat))
    q25 := (percentileQ v (1/4)).map round2
    q50 := (percentileQ v (1/2)).map round2
    q75 := (percentileQ v (3/4)).map round2
    greatest := (v.max?).map (fun x => round2 (x : Rat)) }

/-- `describe_cases` from `advanced_metrics.py`: the distribution summary of
the three count columns (the code lays the result out with one row per
statistic; the content per column is as recorded here).  Column selection
copies, so the caller's frame is untouched. -/
def describe_cases (df : List Row) : List Row × List ColDescribe :=
  (df,
    [describeCol (df.map Row.confirmed_cases),
     describeCol (df.map Row.deaths_cases),
     describeCol (df.map Row.recovered_cases)])

/-- Output of `generate_pivot`: the year column index and, per country, the
row of per-year maxima (`none` models the NaN of a (country, year) pair with
no rows). -/
structure PivotOut where
  years : List Int
  rows : List (String × List (Option Int))
deriving DecidableEq, Repr

/-- `generate_pivot` from `advanced_metrics.py`: assigns a `year` column onto
the caller's frame (no copy is taken), then pivots with
`aggfunc='max'` on confirmed cases, countries as rows and years as
columns. -/
def pivotCell (df : List Row) (c : String) (y : Int) : Option Int :=
  match df.filter (fun r => r.country == c && r.date.year == y) with
  | [] => none
  | g => some (maxD (g.map Row.confirmed_cases))

def generate_pivot (df : List Row) : List Row × PivotOut :=
  (df.map addYearCol,
    ⟨yearsOf df,
      (groupKeys Row.country strLe df).map (fun c =>
        (c, (yearsOf df).map (pivotCell df c)))⟩)

theorem map_self {α : Type _} {f : α → α} {l : List α}
    (h : ∀ x ∈ l, f x = x) : l.map f = l := by
  induction l with
  | nil => rfl
  | cons a t ih =>
    simp only [List.map_cons]
    rw [h a (by simp), ih (fun x hx => h x (by simp [hx]))]

theorem rawLe_trans : ∀ a b c : RawRow, rawLe a b → rawLe b c → rawLe a c := by
  intro a b c h1 h2
  exact pairLe_trans strLe_trans strLe_anti dLe_trans _ _ _ h1 h2

theorem rawLe_total : ∀ a b : RawRow, rawLe a b || rawLe b a := by
  intro a b
  exact pairLe_total strLe_total dLe_total _ _

theorem cleanRow_idem (r : RawRow) : cleanRow (cleanRow r) = cleanRow r := by
  simp [cleanRow]

theorem sum_filter_partition (l : List α) (p : α → Bool) (v : α → Int) :
    ((l.filter p).map v).sum + ((l.filter (fun x => !p x)).map v).sum =
      (l.map v).sum := by
  induction l with
  | nil => rfl
  | cons a t ih =>
    by_cases h : p a
    · simp only [List.filter_cons, h, if_pos, Bool.not_true, if_neg,
        List.map_cons, List.sum_cons, Bool.false_eq_true, ite_false,
        ite_true]
      omega
    · have h2 : p a = false := by simp [h]
      simp only [List.filter_cons, h2, Bool.not_false, List.map_cons,
        List.sum_cons, Bool.false_eq_true, ite_false, ite_true]
      omega

theorem sum_over_keys [DecidableEq κ] (k : α → κ) (v : α → Int) :
    ∀ (keys : List κ) (l : List α), keys.Nodup → (∀ x ∈ l, k x ∈ keys) →
      (keys.map (fun c =>
        ((l.filter (fun x => decide (k x = c))).map v).sum)).sum =
        (l.map v).sum := by
  intro keys
  induction keys with
  | nil =>
    intro l _ hcov
    have hl : l = [] := by
      cases l with
      | nil => rfl
      | cons a t => exact absurd (hcov a (by simp)) (by simp)
    rw [hl]
    rfl
  | cons c keys ih =>
    intro l hnd hcov
    have hnd2 := List.nodup_cons.mp hnd
    have hagree : ∀ c2 ∈ keys,
        (l.filter (fun x => !(decide (k x = c)))).filter
          (fun x => decide (k x = c2)) =
          l.filter (fun x => decide (k x = c2)) := by
      intro c2 hc2
      rw [List.filter_filter]
      apply List.filter_congr
      intro x _
      by_cases hx : k x = c2
      · have hne2 : ¬ c2 = c := fun h => hnd2.1 (h ▸ hc2)
        have hne : ¬ k x = c := by rw [hx]; exact hne2
        simp [hx, hne, hne2]
      · simp [hx]
    have hmaps :
        (keys.map (fun c2 =>
          ((l.filter (fun x => decide (k x = c2))).map v).sum)) =
        (keys.map (fun c2 =>
          (((l.filter (fun x => !(decide (k x = c)))).filter
            (fun x => decide (k x = c2))).map v).sum)) := by
      apply List.map_congr_left
      intro c2 hc2
      rw [hagree c2 hc2]
    rw [List.map_cons, List.sum_cons, hmaps,
      ih (l.filter (fun x => !(decide (k x = c)))) hnd2.2 ?_]
    · exact sum_filter_partition l (fun x => decide (k x = c)) v
    · intro x hx
      rcases List.mem_filter.mp hx with ⟨hxl, hxc⟩
      rcases List.mem_cons.mp (hcov x hxl) with h | h
      · rw [h] at hxc
        simp at hxc
      · exact h

theorem find?_map_build [DecidableEq κ] {β : Type _} (build : κ → β)
    (key : β → κ) (hk : ∀ x, key (build x) = x) :
    ∀ (keys : List κ) (c : κ), keys.Nodup → c ∈ keys →
      (keys.map build).find? (fun b => key b == c) = some (build c) := by
  intro keys
  induction keys with
  | nil => intro c _ hc; simp at hc
  | cons a keys ih =>
    intro c hnd hc
    have hnd2 := List.nodup_cons.mp hnd
    rcases List.mem_cons.mp hc with rfl | hc
    · simp [List.find?_cons, hk]
    · have hne : ¬ a = c := fun h => hnd2.1 (h ▸ hc)
      rw [List.map_cons, List.find?_cons]
      have : (key (build a) == c) = false := by
        rw [hk]
        simp [hne]
      rw [this]
      exact ih c hnd2.2 hc

/-- The per-country, per-date sum of one count column (the claims' "the
per-country sum at the date"). -/
def sumAt (df : List Row) (d : Date) (c : String) (v : Row → Int) : Int :=
  ((df.filter (fun r => r.date == d && r.country == c)).map v).sum

theorem filter_sub_country (df : List Row) (d : Date) (c : String)
    (v : Row → Int) :
    (((df.filter (fun r => r.date == d)).filter
      (fun r => r.country == c)).map v).sum = sumAt df d c v := by
  rw [List.filter_filter]
  unfold sumAt
  apply congrArg
  apply congrArg
  apply List.filter_congr
  intro r _
  rw [Bool.and_comm]

/-- Claim C8: the Cleaner is idempotent — applying `clean_data` twice yields
exactly the table `clean_data` yields once (after one pass all nulls are
filled and the table is sorted ascending by country then report date, so the
second pass changes nothing). -/
theorem c8_clean_data_idempotent (df : List RawRow) :
    clean_data (clean_data df) = clean_data df := by
  unfold clean_data
  have hfix : ∀ x ∈ insSort rawLe (df.map cleanRow), cleanRow x = x := by
    intro x hx
    rw [mem_insSort] at hx
    obtain ⟨y, _, rfl⟩ := List.mem_map.mp hx
    exact cleanRow_idem y
  rw [map_self hfix]
  exact insSort_idem rawLe_total rawLe_trans (df.map cleanRow)

theorem filterMap_congr' {β : Type _} {f g : α → Option β} :
    ∀ {l : List α}, (∀ a ∈ l, f a = g a) → l.filterMap f = l.filterMap g := by
  intro l
  induction l with
  | nil => intro _; rfl
  | cons a t ih =>
    intro h
    rw [List.filterMap_cons, List.filterMap_cons, h a (by simp),
      ih (fun x hx => h x (by simp [hx]))]

theorem filterMap_some_map {β : Type _} {f : α → β} (l : List α) :
    l.filterMap (fun a => some (f a)) = l.map f := by
  induction l with
  | nil => rfl
  | cons a t ih =>
    rw [List.filterMap_cons]
    simp [ih]

theorem find?_country_self :
    ∀ (L : List CountryStat), (L.map CountryStat.country).Nodup →
      ∀ en ∈ L, L.find? (fun st => st.country == en.country) = some en := by
  intro L
  induction L with
  | nil => intro _ en hen; simp at hen
  | cons a t ih =>
    intro hnd en hen
    rw [List.map_cons] at hnd
    have hnd2 := List.nodup_cons.mp hnd
    rcases List.mem_cons.mp hen with rfl | hen
    · simp [List.find?_cons]
    · have hne : (a.country == en.country) = false := by
        have hmem : en.country ∈ t.map CountryStat.country :=
          List.mem_map.mpr ⟨en, hen, rfl⟩
        by_cases h : a.country = en.country
        · exact absurd (h ▸ hmem) hnd2.1
        · simp [h]
      rw [List.find?_cons, hne]
      exact ih hnd2.2 en hen

theorem filterMap_find?_self (L : List CountryStat)
    (hnd : (L.map CountryStat.country).Nodup) :
    L.filterMap (fun en => (L.find? (fun st => st.country == en.country)).map
      (fun st => (⟨en.country, en.confirmed_cases - st.confirmed_cases,
        en.deaths_cases - st.deaths_cases,
        en.recovered_cases - st.recovered_cases⟩ : CountryStat)))
    = L.map (fun en => ⟨en.country, 0, 0, 0⟩) := by
  rw [filterMap_congr' (fun en hen => ?_)]
  · exact filterMap_some_map L
  · rw [find?_country_self L hnd en hen]
    simp

theorem dateSums_countries (df : List Row) (d : Date) :
    (dateSums df d).map CountryStat.country =
      groupKeys Row.country strLe (df.filter (fun r => r.date == d)) := by
  rw [dateSums, List.map_map]
  exact map_self (fun c _ => rfl)

/-- Claim C10: with start date and end date both equal to `d`, the date-range
delta returns exactly one row per country having at least one row at date
`d`, each with all three deltas equal to 0. -/
theorem c10_date_range_degenerate (df : List Row) (d : Date) :
    (stats_by_date_range df d d).snd =
      (groupKeys Row.country strLe (df.filter (fun r => r.date == d))).map
        (fun c => ⟨c, 0, 0, 0⟩) ∧
    ∀ c : String,
      (∃ st ∈ (stats_by_date_range df d d).snd, st.country = c) ↔
        ∃ r ∈ df, r.date = d ∧ r.country = c := by
  have hnd : ((dateSums df d).map CountryStat.country).Nodup := by
    rw [dateSums_countries]
    exact nodup_groupKeys _ _ _
  have hmain : (stats_by_date_range df d d).snd =
      (groupKeys Row.country strLe (df.filter (fun r => r.date == d))).map
        (fun c => ⟨c, 0, 0, 0⟩) := by
    show (dateSums df d).filterMap _ = _
    rw [filterMap_find?_self (dateSums df d) hnd, dateSums, List.map_map]
    rfl
  refine ⟨hmain, fun c => ?_⟩
  rw [hmain]
  constructor
  · rintro ⟨st, hst, rfl⟩
    rcases List.mem_map.mp hst with ⟨c2, hc2, rfl⟩
    rcases (mem_groupKeys _ _ _ _).mp hc2 with ⟨r, hr, hrc⟩
    rcases List.mem_filter.mp hr with ⟨hrdf, hrd⟩
    exact ⟨r, hrdf, by simpa using hrd, hrc⟩
  · rintro ⟨r, hrdf, hrd, hrc⟩
    refine ⟨⟨c, 0, 0, 0⟩, List.mem_map.mpr ⟨c, ?_, rfl⟩, rfl⟩
    exact (mem_groupKeys _ _ _ _).mpr
      ⟨r, List.mem_filter.mpr ⟨hrdf, by simpa using hrd⟩, hrc⟩

theorem buildStatAt_country (df : List Row) (d : Date) (c : String) :
    (buildStatAt df d c).country = c := rfl

theorem buildStatAt_confirmed (df : List Row) (d : Date) (c : String) :
    (buildStatAt df d c).confirmed_cases =
      sumAt df d c Row.confirmed_cases :=
  filter_sub_country df d c Row.confirmed_cases

theorem buildStatAt_deaths (df : List Row) (d : Date) (c : String) :
    (buildStatAt df d c).deaths_cases = sumAt df d c Row.deaths_cases :=
  filter_sub_country df d c Row.deaths_cases

theorem buildStatAt_recovered (df : List Row) (d : Date) (c : String) :
    (buildStatAt df d c).recovered_cases =
      sumAt df d c Row.recovered_cases :=
  filter_sub_country df d c Row.recovered_cases

theorem c3_sublist (dfS dfE : List CountryStat) :
    ((dfE.filterMap (fun en =>
      (dfS.find? (fun st => st.country == en.country)).map
      (fun st => (⟨en.country, en.confirmed_cases - st.confirmed_cases,
        en.deaths_cases - st.deaths_cases,
        en.recovered_cases - st.recovered_cases⟩ : CountryStat)))).map
      CountryStat.country).Sublist (dfE.map CountryStat.country) := by
  induction dfE with
  | nil => simp
  | cons en rest ih =>
    rw [List.filterMap_cons]
    cases hfind : dfS.find? (fun st => st.country == en.country) with
    | none =>
      simp only [Option.map_none']
      exact ih.cons _
    | some stS =>
      simp only [Option.map_some']
      exact ih.cons₂ _

/-- Claim C3: the date-range delta contains one row per country having rows
at both the start and the end date (inner-join semantics: a country lacking
rows at either date is silently absent, and no input is an error), and that
row's three values are the per-country sum at the end date minus the
per-country sum at the start date. -/
theorem c3_date_range_delta (df : List Row) (s e : Date) :
    (∀ st : CountryStat,
      st ∈ (stats_by_date_range df s e).snd ↔
        ((∃ r ∈ df, r.country = st.country ∧ r.date = s) ∧
         (∃ r ∈ df, r.country = st.country ∧ r.date = e) ∧
         st.confirmed_cases = sumAt df e st.country Row.confirmed_cases -
           sumAt df s st.country Row.confirmed_cases ∧
         st.deaths_cases = sumAt df e st.country Row.deaths_cases -
           sumAt df s st.country Row.deaths_cases ∧
         st.recovered_cases = sumAt df e st.country Row.recovered_cases -
           sumAt df s st.country Row.recovered_cases)) ∧
    ((stats_by_date_range df s e).snd.map CountryStat.country).Nodup := by
  have hsnd : (stats_by_date_range df s e).snd = (dateSums df e).filterMap
      (fun en => ((dateSums df s).find?
        (fun st => st.country == en.country)).map
        (fun st => (⟨en.country, en.confirmed_cases - st.confirmed_cases,
          en.deaths_cases - st.deaths_cases,
          en.recovered_cases - st.recovered_cases⟩ : CountryStat))) := rfl
  constructor
  · intro st
    rw [hsnd]
    constructor
    · intro hmem
      rcases List.mem_filterMap.mp hmem with ⟨en, hen, hfen⟩
      rw [dateSums] at hen
      rcases List.mem_map.mp hen with ⟨cE, hcE, rfl⟩
      rcases Option.map_eq_some'.mp hfen with ⟨stS, hfindS, hsub⟩
      have hstSmem : stS ∈ dateSums df s :=
        List.mem_of_find?_eq_some hfindS
      have hstSc0 := List.find?_some hfindS
      simp only [buildStatAt_country] at hstSc0
      have hstSc : stS.country = cE := beq_iff_eq.mp hstSc0
      rw [dateSums] at hstSmem
      rcases List.mem_map.mp hstSmem with ⟨cS, hcS, rfl⟩
      have hcSE : cS = cE := by
        rw [buildStatAt_country] at hstSc
        exact hstSc
      subst hcSE
      have hstc : st.country = cS := by
        rw [← hsub]
        exact rfl
      have hstconf : st.confirmed_cases =
          sumAt df e cS Row.confirmed_cases -
            sumAt df s cS Row.confirmed_cases := by
        rw [← hsub]
        show (buildStatAt df e cS).confirmed_cases -
          (buildStatAt df s cS).confirmed_cases = _
        rw [buildStatAt_confirmed, buildStatAt_confirmed]
      have hstdeaths : st.deaths_cases =
          sumAt df e cS Row.deaths_cases -
            sumAt df s cS Row.deaths_cases := by
        rw [← hsub]
        show (buildStatAt df e cS).deaths_cases -
          (buildStatAt df s cS).deaths_cases = _
        rw [buildStatAt_deaths, buildStatAt_deaths]
      have hstrec : st.recovered_cases =
          sumAt df e cS Row.recovered_cases -
            sumAt df s cS Row.recovered_cases := by
        rw [← hsub]
        show (buildStatAt df e cS).recovered_cases -
          (buildStatAt df s cS).recovered_cases = _
        rw [buildStatAt_recovered, buildStatAt_recovered]
      rcases (mem_groupKeys _ _ _ _).mp hcS with ⟨rS, hrS, hrSc⟩
      rcases List.mem_filter.mp hrS with ⟨hrSdf, hrSd⟩
      rcases (mem_groupKeys _ _ _ _).mp hcE with ⟨rE, hrE, hrEc⟩
      rcases List.mem_filter.mp hrE with ⟨hrEdf, hrEd⟩
      refine ⟨⟨rS, hrSdf, by rw [hrSc, ← hstc], by simpa using hrSd⟩,
        ⟨rE, hrEdf, by rw [hrEc, ← hstc], by simpa using hrEd⟩, ?_, ?_, ?_⟩
      · rw [hstc]; exact hstconf
      · rw [hstc]; exact hstdeaths
      · rw [hstc]; exact hstrec
    · rintro ⟨⟨rS, hrSdf, hrSc, hrSd⟩, ⟨rE, hrEdf, hrEc, hrEd⟩,
        hconf, hdeaths, hrec⟩
      have hcS : st.country ∈ groupKeys Row.country strLe
          (df.filter (fun r => r.date == s)) :=
        (mem_groupKeys _ _ _ _).mpr
          ⟨rS, List.mem_filter.mpr ⟨hrSdf, by simpa using hrSd⟩, hrSc⟩
      have hcE : st.country ∈ groupKeys Row.country strLe
          (df.filter (fun r => r.date == e)) :=
        (mem_groupKeys _ _ _ _).mpr
          ⟨rE, List.mem_filter.mpr ⟨hrEdf, by simpa using hrEd⟩, hrEc⟩
      have hfind : (dateSums df s).find?
          (fun st2 => st2.country == (buildStatAt df e st.country).country) =
          some (buildStatAt df s st.country) := by
        show (dateSums df s).find?
          (fun st2 => st2.country == st.country) = _
        rw [dateSums]
        exact find?_map_build (buildStatAt df s) CountryStat.country
          (fun x => rfl) _ st.country (nodup_groupKeys _ _ _) hcS
      refine List.mem_filterMap.mpr ⟨buildStatAt df e st.country, ?_, ?_⟩
      · rw [dateSums]
        exact List.mem_map.mpr ⟨st.country, hcE, rfl⟩
      · rw [hfind]
        show some (⟨(buildStatAt df e st.country).country,
          (buildStatAt df e st.country).confirmed_cases -
            (buildStatAt df s st.country).confirmed_cases,
          (buildStatAt df e st.country).deaths_cases -
            (buildStatAt df s st.country).deaths_cases,
          (buildStatAt df e st.country).recovered_cases -
            (buildStatAt df s st.country).recovered_cases⟩ : CountryStat)
          = some st
        rw [buildStatAt_country, buildStatAt_confirmed, buildStatAt_confirmed,
          buildStatAt_deaths, buildStatAt_deaths, buildStatAt_recovered,
          buildStatAt_recovered, ← hconf, ← hdeaths, ← hrec]
  · rw [hsnd]
    have hsub := c3_sublist (dateSums df s) (dateSums df e)
    refine hsub.nodup ?_
    rw [dateSums_countries]
    exact nodup_groupKeys _ _ _

/-- Claim C9: the Filter Engine with all predicates unset returns the table
grouped by (country, date) — the key pairs of the output are pairwise
distinct and the province column is not part of the output schema — and the
total sums of the three count columns equal those of the ungrouped input. -/
theorem c9_filter_data_no_predicates (df : List Row) :
    ((filter_data df none none none).snd.map
      (fun r => (r.country, r.date))).Nodup ∧
    ((filter_data df none none none).snd.map
      FilteredRow.confirmed_cases).sum = (df.map Row.confirmed_cases).sum ∧
    ((filter_data df none none none).snd.map
      FilteredRow.deaths_cases).sum = (df.map Row.deaths_cases).sum ∧
    ((filter_data df none none none).snd.map
      FilteredRow.recovered_cases).sum = (df.map Row.recovered_cases).sum := by
  have hsnd : (filter_data df none none none).snd =
      (groupKeys (fun r => (r.country, r.date)) strDateLe df).map
        (buildFilteredAt df) := rfl
  have hsum : ∀ v : Row → Int,
      ((groupKeys (fun r => (r.country, r.date)) strDateLe df).map
        (fun k => ((df.filter
          (fun r => r.country == k.1 && r.date == k.2)).map v).sum)).sum =
        (df.map v).sum := by
    intro v
    have h1 : (groupKeys (fun r => (r.country, r.date)) strDateLe df).map
        (fun k => ((df.filter
          (fun r => r.country == k.1 && r.date == k.2)).map v).sum) =
        (groupKeys (fun r => (r.country, r.date)) strDateLe df).map
        (fun c => ((df.filter
          (fun x => decide ((x.country, x.date) = c))).map v).sum) := by
      apply List.map_congr_left
      intro c _
      have hfeq : df.filter (fun r => r.country == c.1 && r.date == c.2) =
          df.filter (fun x => decide ((x.country, x.date) = c)) := by
        apply List.filter_congr
        intro r _
        obtain ⟨c1, c2⟩ := c
        by_cases h1 : r.country = c1 <;> by_cases h2 : r.date = c2 <;>
          simp [h1, h2]
      rw [hfeq]
    rw [h1]
    exact sum_over_keys (fun r => (r.country, r.date)) v _ df
      (nodup_groupKeys _ _ _)
      (fun x hx => (mem_groupKeys _ _ _ _).mpr ⟨x, hx, rfl⟩)
  refine ⟨?_, ?_, ?_, ?_⟩
  · rw [hsnd, List.map_map]
    have hid : (groupKeys (fun r => (r.country, r.date)) strDateLe df).map
        ((fun r : FilteredRow => (r.country, r.date)) ∘ buildFilteredAt df) =
        groupKeys (fun r => (r.country, r.date)) strDateLe df :=
      map_self (fun k _ => rfl)
    rw [hid]
    exact nodup_groupKeys _ _ _
  · rw [hsnd, List.map_map]
    exact hsum Row.confirmed_cases
  · rw [hsnd, List.map_map]
    exact hsum Row.deaths_cases
  · rw [hsnd, List.map_map]
    exact hsum Row.recovered_cases

/-- The per-country group of rows the rate calculation averages over, as the
claim words it: the country's rows that survive the zero-confirmed
discard. -/
def ratesGroup (df : List Row) (c : String) : List Row :=
  df.filter (fun r => r.country == c && decide (0 < r.confirmed_cases))

theorem ratesGroup_eq (df : List Row) (c : String) :
    (df.filter (fun r => decide (0 < r.confirmed_cases))).filter
      (fun r => r.country == c) = ratesGroup df c := by
  rw [List.filter_filter]
  apply List.filter_congr
  intro r _
  rw [Bool.and_comm]

theorem rateRowAt_country (df : List Row) (c : String) :
    (rateRowAt df c).country = c := rfl

theorem rateRowAt_fatality (df : List Row) (c : String) :
    (rateRowAt df c).fatality_rate = meanQ ((ratesGroup df c).map (fun r =>
      ((r.deaths_cases : Rat) / (r.confirmed_cases : Rat)) * 100)) := by
  show meanQ (((df.filter (fun r => decide (0 < r.confirmed_cases))).filter
    (fun r => r.country == c)).map (fun r =>
      ((r.deaths_cases : Rat) / (r.confirmed_cases : Rat)) * 100)) = _
  rw [ratesGroup_eq]

theorem rateRowAt_recovery (df : List Row) (c : String) :
    (rateRowAt df c).recovery_rate = meanQ ((ratesGroup df c).map (fun r =>
      ((r.recovered_cases : Rat) / (r.confirmed_cases : Rat)) * 100)) := by
  show meanQ (((df.filter (fun r => decide (0 < r.confirmed_cases))).filter
    (fun r => r.country == c)).map (fun r =>
      ((r.recovered_cases : Rat) / (r.confirmed_cases : Rat)) * 100)) = _
  rw [ratesGroup_eq]

/-- Claim C2 (amended): the rate calculation discards every row whose
`confirmed_cases` is not strictly positive (in particular every row with
`confirmed_cases = 0`), then returns one row per remaining country whose
fatality and recovery rates are the arithmetic means, over that country's
remaining rows, of the per-row ratios `deaths/confirmed*100` and
`recovered/confirmed*100` — means of per-row ratios, not ratios of sums. -/
theorem c2_rates_characterization (df : List Row) :
    ((calculate_rates df).snd.map RateRow.country).Nodup ∧
    ∀ rr : RateRow, rr ∈ (calculate_rates df).snd ↔
      ((∃ r ∈ df, r.country = rr.country ∧ 0 < r.confirmed_cases) ∧
       rr.fatality_rate = meanQ ((ratesGroup df rr.country).map (fun r =>
         ((r.deaths_cases : Rat) / (r.confirmed_cases : Rat)) * 100)) ∧
       rr.recovery_rate = meanQ ((ratesGroup df rr.country).map (fun r =>
         ((r.recovered_cases : Rat) / (r.confirmed_cases : Rat)) * 100))) := by
  have hsnd : (calculate_rates df).snd =
      (groupKeys Row.country strLe
        (df.filter (fun r => decide (0 < r.confirmed_cases)))).map
        (rateRowAt df) := rfl
  constructor
  · rw [hsnd, List.map_map]
    have hid : (groupKeys Row.country strLe
        (df.filter (fun r => decide (0 < r.confirmed_cases)))).map
        (RateRow.country ∘ rateRowAt df) =
        groupKeys Row.country strLe
          (df.filter (fun r => decide (0 < r.confirmed_cases))) :=
      map_self (fun c _ => rfl)
    rw [hid]
    exact nodup_groupKeys _ _ _
  · intro rr
    rw [hsnd]
    constructor
    · intro hmem
      rcases List.mem_map.mp hmem with ⟨c, hc, rfl⟩
      rcases (mem_groupKeys _ _ _ _).mp hc with ⟨r, hr, hrc⟩
      rcases List.mem_filter.mp hr with ⟨hrdf, hrpos⟩
      refine ⟨⟨r, hrdf, by rw [hrc, rateRowAt_country], by simpa using hrpos⟩,
        ?_, ?_⟩
      · rw [rateRowAt_country, rateRowAt_fatality]
      · rw [rateRowAt_country, rateRowAt_recovery]
    · rintro ⟨⟨r, hrdf, hrc, hrpos⟩, hfat, hrec⟩
      have hc : rr.country ∈ groupKeys Row.country strLe
          (df.filter (fun r => decide (0 < r.confirmed_cases))) :=
        (mem_groupKeys _ _ _ _).mpr
          ⟨r, List.mem_filter.mpr ⟨hrdf, by simpa using hrpos⟩, hrc⟩
      refine List.mem_map.mpr ⟨rr.country, hc, ?_⟩
      obtain ⟨rc, rf, rrv⟩ := rr
      simp only at hfat hrec ⊢
      calc rateRowAt df rc
          = (⟨(rateRowAt df rc).country, (rateRowAt df rc).fatality_rate,
              (rateRowAt df rc).recovery_rate⟩ : RateRow) := rfl
        _ = ⟨rc, rf, rrv⟩ := by
            rw [rateRowAt_country, rateRowAt_fatality, rateRowAt_recovery,
              ← hfat, ← hrec]

theorem maxYear_spec (df : List Row) (c : String) (y : Int) :
    (∀ r ∈ df, r.country = c → r.date.year = y →
      r.confirmed_cases ≤ maxYear df c y) ∧
    ((maxYear df c y = 0 ∧
        ¬ ∃ r ∈ df, r.country = c ∧ r.date.year = y) ∨
      ∃ r ∈ df, r.country = c ∧ r.date.year = y ∧
        r.confirmed_cases = maxYear df c y) := by
  by_cases hg : df.filter (fun r => r.country == c && r.date.year == y) = []
  · constructor
    · intro r hr hrc hry
      have hmem : r ∈ df.filter (fun r => r.country == c && r.date.year == y) :=
        List.mem_filter.mpr ⟨hr, by simp [hrc, hry]⟩
      rw [hg] at hmem
      simp at hmem
    · left
      constructor
      · show maxD ((df.filter
          (fun r => r.country == c && r.date.year == y)).map
            Row.confirmed_cases) = 0
        rw [hg]
        rfl
      · rintro ⟨r, hr, hrc, hry⟩
        have hmem : r ∈ df.filter
            (fun r => r.country == c && r.date.year == y) :=
          List.mem_filter.mpr ⟨hr, by simp [hrc, hry]⟩
        rw [hg] at hmem
        simp at hmem
  · have hmap : (df.filter
        (fun r => r.country == c && r.date.year == y)).map
          Row.confirmed_cases ≠ [] := by
      simpa using hg
    rcases maxD_spec _ hmap with ⟨hmem, hub⟩
    constructor
    · intro r hr hrc hry
      exact hub _ (List.mem_map.mpr
        ⟨r, List.mem_filter.mpr ⟨hr, by simp [hrc, hry]⟩, rfl⟩)
    · right
      rcases List.mem_map.mp hmem with ⟨r, hrg, hconf⟩
      rcases List.mem_filter.mp hrg with ⟨hrdf, hcond⟩
      rcases (Bool.and_eq_true _ _).mp hcond with ⟨hrc, hry⟩
      exact ⟨r, hrdf, beq_iff_eq.mp hrc, beq_iff_eq.mp hry, hconf⟩

/-- Claim C1 (amended): for every cleaned table whose rows span all three of
2021, 2022 and 2023 (with fewer distinct years the positional column
renaming raises a length-mismatch error instead of returning), the wave
comparison returns one row per country whose three year columns are the
per-country maxima of confirmed cases within each calendar year (0 for a
country-year with no rows), and whose percentage-change columns are
(2022−2021)/2021×100, (2023−2022)/2022×100, (2023−2021)/2021×100 rounded to
2 decimals whenever the denominator year value is nonzero — a zero
denominator yields a non-finite value (modelled `none`), as the unguarded
division does. -/
theorem c1_wave_intensity_amended (df : List Row)
    (h : yearsOf df = [2021, 2022, 2023]) :
    ∃ out, (compare_wave_intensity df).snd = Except.ok out ∧
      (out.map WaveRow.country).Nodup ∧
      (∀ c : String, (∃ w ∈ out, w.country = c) ↔ ∃ r ∈ df, r.country = c) ∧
      ∀ w ∈ out,
        ((∀ r ∈ df, r.country = w.country → r.date.year = 2021 →
            r.confirmed_cases ≤ w.y2021) ∧
         ((w.y2021 = 0 ∧
             ¬ ∃ r ∈ df, r.country = w.country ∧ r.date.year = 2021) ∨
           ∃ r ∈ df, r.country = w.country ∧ r.date.year = 2021 ∧
             r.confirmed_cases = w.y2021)) ∧
        ((∀ r ∈ df, r.country = w.country → r.date.year = 2022 →
            r.confirmed_cases ≤ w.y2022) ∧
         ((w.y2022 = 0 ∧
             ¬ ∃ r ∈ df, r.country = w.country ∧ r.date.year = 2022) ∨
           ∃ r ∈ df, r.country = w.country ∧ r.date.year = 2022 ∧
             r.confirmed_cases = w.y2022)) ∧
        ((∀ r ∈ df, r.country = w.country → r.date.year = 2023 →
            r.confirmed_cases ≤ w.y2023) ∧
         ((w.y2023 = 0 ∧
             ¬ ∃ r ∈ df, r.country = w.country ∧ r.date.year = 2023) ∨
           ∃ r ∈ df, r.country = w.country ∧ r.date.year = 2023 ∧
             r.confirmed_cases = w.y2023)) ∧
        w.pct_21_22 = (if w.y2021 = 0 then none
          else some (round2 ((((w.y2022 : Rat)) - ((w.y2021 : Rat))) /
            ((w.y2021 : Rat)) * 100))) ∧
        w.pct_22_23 = (if w.y2022 = 0 then none
          else some (round2 ((((w.y2023 : Rat)) - ((w.y2022 : Rat))) /
            ((w.y2022 : Rat)) * 100))) ∧
        w.pct_21_23 = (if w.y2021 = 0 then none
          else some (round2 ((((w.y2023 : Rat)) - ((w.y2021 : Rat))) /
            ((w.y2021 : Rat)) * 100))) := by
  refine ⟨(groupKeys Row.country strLe df).map (waveRowAt df 2021 2022 2023),
    ?_, ?_, ?_, ?_⟩
  · show (match yearsOf df with
      | [y1, y2, y3] =>
        Except.ok ((groupKeys Row.country strLe df).map (waveRowAt df y1 y2 y3))
      | _ =>
        Except.error
          "Length mismatch: new column names do not have 3 elements") = _
    rw [h]
  · rw [List.map_map]
    have hid : (groupKeys Row.country strLe df).map
        (WaveRow.country ∘ waveRowAt df 2021 2022 2023) =
        groupKeys Row.country strLe df :=
      map_self (fun c _ => rfl)
    rw [hid]
    exact nodup_groupKeys _ _ _
  · intro c
    constructor
    · rintro ⟨w, hw, rfl⟩
      rcases List.mem_map.mp hw with ⟨c2, hc2, rfl⟩
      rcases (mem_groupKeys _ _ _ _).mp hc2 with ⟨r, hr, hrc⟩
      exact ⟨r, hr, hrc⟩
    · rintro ⟨r, hr, rfl⟩
      exact ⟨waveRowAt df 2021 2022 2023 r.country,
        List.mem_map.mpr
          ⟨r.country, (mem_groupKeys _ _ _ _).mpr ⟨r, hr, rfl⟩, rfl⟩, rfl⟩
  · intro w hw
    rcases List.mem_map.mp hw with ⟨c, hc, rfl⟩
    exact ⟨maxYear_spec df c 2021, maxYear_spec df c 2022,
      maxYear_spec df c 2023, rfl, rfl, rfl⟩

/-- Concrete-row helper for the test fixtures below. -/
def sampleRow (c : String) (y : Int) (m d : Nat) (cf dt rc : Int) : Row :=
  { country := c, province := "P", date := ⟨y, m, d⟩,
    confirmed_cases := cf, deaths_cases := dt, recovered_cases := rc,
    latitude := 0, longitude := 0 }

/-- A table with a negative-confirmed row and a positive row for one
country. -/
def c2df : List Row :=
  [sampleRow "A" 2021 1 1 (-50) 5 0, sampleRow "A" 2021 1 2 50 5 0]

unseal Rat.mul Rat.add Rat.sub Rat.inv in
/-- Claim C2 counterexample: the code keeps only rows with
`confirmed_cases > 0` (the negative row is discarded, fatality rate 10),
whereas discarding only the rows with `confirmed_cases = 0`, as the claim
states, would keep the negative row and give mean 0. -/
theorem c2_counterexample :
    (calculate_rates c2df).snd = [⟨"A", 10, 0⟩] ∧
    calculate_rates_claimed c2df = [⟨"A", 0, 0⟩] :=
  ⟨by decide, by decide⟩

/-- A cleaned table whose rows span only 2021 and 2022. -/
def c1df : List Row :=
  [sampleRow "India" 2021 3 1 100 0 0, sampleRow "India" 2022 3 1 150 0 0]

/-- Claim C1 counterexample: on a cleaned table with only two distinct
years, `compare_wave_intensity` raises the positional-rename length
mismatch instead of returning one row per country. -/
theorem c1_counterexample :
    (compare_wave_intensity c1df).snd =
      Except.error "Length mismatch: new column names do not have 3 elements"
    := by decide

/-- The three-year India table of the claim's example (yearly maxima 100,
150, 120). -/
def c1wdf : List Row :=
  [sampleRow "India" 2021 3 1 100 0 0, sampleRow "India" 2022 3 1 150 0 0,
   sampleRow "India" 2023 3 1 120 0 0]

unseal Rat.mul Rat.add Rat.sub Rat.inv in
/-- Witness for the amended C1: the three-year table satisfies the
hypothesis and the comparison succeeds on it; the returned row carries the
claim's example values 50.00, −20.00, 20.00. -/
theorem c1_witness :
    yearsOf c1wdf = [2021, 2022, 2023] ∧
    (∃ out, (compare_wave_intensity c1wdf).snd = Except.ok out) ∧
    (compare_wave_intensity c1wdf).snd =
      Except.ok [⟨"India", 100, 150, 120, some 50, some (-20), some 20⟩] :=
  ⟨by decide,
    (c1_wave_intensity_amended c1wdf (by decide)).elim
      (fun out hout => ⟨out, hout.1⟩),
    by decide⟩

theorem stats_by_month_snd_stable (df : List Row) :
    (stats_by_month (df.map addMonthCol)).snd = (stats_by_month df).snd := by
  have hmaps : (df.map addMonthCol).map
      (fun r => (r.country, monthFmt r.date)) =
      df.map (fun r => (r.country, monthFmt r.date)) := by
    rw [List.map_map]
    rfl
  have hkeys : groupKeys (fun r => (r.country, monthFmt r.date)) strPairLe
      (df.map addMonthCol) =
      groupKeys (fun r => (r.country, monthFmt r.date)) strPairLe df := by
    unfold groupKeys
    rw [hmaps]
  show (groupKeys (fun r => (r.country, monthFmt r.date)) strPairLe
      (df.map addMonthCol)).map _ = _
  rw [hkeys]
  apply List.map_congr_left
  intro k _
  have hfilter : (df.map addMonthCol).filter
      (fun r => r.country == k.1 && monthFmt r.date == k.2) =
      (df.filter (fun r => r.country == k.1 && monthFmt r.date == k.2)).map
        addMonthCol := by
    rw [List.filter_map]
    rfl
  show (⟨k.1, k.2,
    maxD (((df.map addMonthCol).filter
      (fun r => r.country == k.1 && monthFmt r.date == k.2)).map
        Row.confirmed_cases),
    maxD (((df.map addMonthCol).filter
      (fun r => r.country == k.1 && monthFmt r.date == k.2)).map
        Row.deaths_cases),
    maxD (((df.map addMonthCol).filter
      (fun r => r.country == k.1 && monthFmt r.date == k.2)).map
        Row.recovered_cases)⟩ : MonthStat) = _
  rw [hfilter]
  simp only [List.map_map]
  rfl

theorem stats_by_year_snd_stable (df : List Row) :
    (stats_by_year (df.map addYearCol)).snd = (stats_by_year df).snd := by
  have hmaps : (df.map addYearCol).map (fun r => (r.country, r.date.year)) =
      df.map (fun r => (r.country, r.date.year)) := by
    rw [List.map_map]
    rfl
  have hkeys : groupKeys (fun r => (r.country, r.date.year)) strIntLe
      (df.map addYearCol) =
      groupKeys (fun r => (r.country, r.date.year)) strIntLe df := by
    unfold groupKeys
    rw [hmaps]
  show (groupKeys (fun r => (r.country, r.date.year)) strIntLe
      (df.map addYearCol)).map _ = _
  rw [hkeys]
  apply List.map_congr_left
  intro k _
  have hfilter : (df.map addYearCol).filter
      (fun r => r.country == k.1 && r.date.year == k.2) =
      (df.filter (fun r => r.country == k.1 && r.date.year == k.2)).map
        addYearCol := by
    rw [List.filter_map]
    rfl
  show (⟨k.1, k.2,
    maxD (((df.map addYearCol).filter
      (fun r => r.country == k.1 && r.date.year == k.2)).map
        Row.confirmed_cases),
    maxD (((df.map addYearCol).filter
      (fun r => r.country == k.1 && r.date.year == k.2)).map
        Row.deaths_cases),
    maxD (((df.map addYearCol).filter
      (fun r => r.country == k.1 && r.date.year == k.2)).map
        Row.recovered_cases)⟩ : YearStat) = _
  rw [hfilter]
  simp only [List.map_map]
  rfl

theorem generate_pivot_snd_stable (df : List Row) :
    (generate_pivot (df.map addYearCol)).snd = (generate_pivot df).snd := by
  have hyears : yearsOf (df.map addYearCol) = yearsOf df := by
    unfold yearsOf groupKeys
    rw [List.map_map]
    rfl
  have hcountries : groupKeys Row.country strLe (df.map addYearCol) =
      groupKeys Row.country strLe df := by
    unfold groupKeys
    rw [List.map_map]
    rfl
  show (⟨yearsOf (df.map addYearCol),
    (groupKeys Row.country strLe (df.map addYearCol)).map _⟩ : PivotOut) = _
  rw [hyears, hcountries]
  have hrows : ∀ c : String, ∀ y : Int,
      ((df.map addYearCol).filter
        (fun r => r.country == c && r.date.year == y)) =
      (df.filter (fun r => r.country == c && r.date.year == y)).map
        addYearCol := by
    intro c y
    rw [List.filter_map]
    rfl
  have hcell : ∀ c : String, ∀ y : Int,
      pivotCell (df.map addYearCol) c y = pivotCell df c y := by
    intro c y
    unfold pivotCell
    rw [hrows]
    cases df.filter (fun r => r.country == c && r.date.year == y) with
    | nil => rfl
    | cons a t =>
      simp only [List.map_cons, List.map_map]
      rfl
  apply congrArg
  apply List.map_congr_left
  intro c _
  apply congrArg
  apply List.map_congr_left
  intro y _
  exact hcell c y

theorem addMonthCol_idem_map (df : List Row) :
    (df.map addMonthCol).map addMonthCol = df.map addMonthCol := by
  rw [List.map_map]
  apply List.map_congr_left
  intro r _
  rfl

theorem addYearCol_idem_map (df : List Row) :
    (df.map addYearCol).map addYearCol = df.map addYearCol := by
  rw [List.map_map]
  apply List.map_congr_left
  intro r _
  rfl

/-- Claim C4 (amended): the aggregation operations are deterministic and
idempotent — a second call on the same (possibly once-mutated) table returns
the same result, and a second mutation changes nothing further — and
`compare_wave_intensity`, `calculate_rates`, `describe_cases`,
`stats_by_country` and `filter_data` leave the input table unchanged; but
`stats_by_month`, `stats_by_year` and `generate_pivot` are not pure: they
assign a derived `month_year` / `year` column onto the caller's table. -/
theorem c4_frame_effects (df : List Row) (year : Option Int)
    (month : Option Nat) (country : Option String) :
    (compare_wave_intensity df).fst = df ∧
    (calculate_rates df).fst = df ∧
    (describe_cases df).fst = df ∧
    (stats_by_country df).fst = df ∧
    (filter_data df year month country).fst = df ∧
    (stats_by_month df).fst = df.map addMonthCol ∧
    (stats_by_year df).fst = df.map addYearCol ∧
    (generate_pivot df).fst = df.map addYearCol ∧
    (compare_wave_intensity ((compare_wave_intensity df).fst)).snd =
      (compare_wave_intensity df).snd ∧
    (calculate_rates ((calculate_rates df).fst)).snd =
      (calculate_rates df).snd ∧
    (describe_cases ((describe_cases df).fst)).snd =
      (describe_cases df).snd ∧
    (stats_by_country ((stats_by_country df).fst)).snd =
      (stats_by_country df).snd ∧
    (filter_data ((filter_data df year month country).fst)
      year month country).snd = (filter_data df year month country).snd ∧
    (stats_by_month ((stats_by_month df).fst)).snd =
      (stats_by_month df).snd ∧
    (stats_by_year ((stats_by_year df).fst)).snd = (stats_by_year df).snd ∧
    (generate_pivot ((generate_pivot df).fst)).snd =
      (generate_pivot df).snd ∧
    (stats_by_month ((stats_by_month df).fst)).fst =
      (stats_by_month df).fst ∧
    (stats_by_year ((stats_by_year df).fst)).fst = (stats_by_year df).fst ∧
    (generate_pivot ((generate_pivot df).fst)).fst =
      (generate_pivot df).fst :=
  ⟨rfl, rfl, rfl, rfl, rfl, rfl, rfl, rfl, rfl, rfl, rfl, rfl, rfl,
    stats_by_month_snd_stable df, stats_by_year_snd_stable df,
    generate_pivot_snd_stable df, addMonthCol_idem_map df,
    addYearCol_idem_map df, addYearCol_idem_map df⟩

/-- A one-row table for the frame-effect counterexample. -/
def c4df : List Row := [sampleRow "A" 2021 1 1 1 2 3]

/-- Claim C4 counterexample: `stats_by_month` does not leave its input
table unchanged — it assigns the derived `month_year` column onto it. -/
theorem c4_counterexample : (stats_by_month c4df).fst ≠ c4df := by decide

/-- Boolean test for a directory entry the `load_all_csvs` loop passes over:
not a `.csv` name, or a parseable filename date whose year is outside
2021–2023. -/
def fileSkippedB (f : String × List CsvRow) : Bool :=
  !isCsvName f.1 ||
    (match parseDateToken (stripCsv f.1) with
     | some d => decide (d.year < 2021 ∨ d.year > 2023)
     | none => false)

theorem loadFold_all_skipped :
    ∀ files : List (String × List CsvRow),
      (∀ f ∈ files, fileSkippedB f = true) → loadFold files = .ok [] := by
  intro files
  induction files with
  | nil => intro _; rfl
  | cons f rest ih =>
    intro h
    have hf := h f (by simp)
    have hrest : ∀ g ∈ rest, fileSkippedB g = true :=
      fun g hg => h g (by simp [hg])
    obtain ⟨name, rows⟩ := f
    cases hc : isCsvName name with
    | false =>
      simp only [loadFold, hc, Bool.not_false, if_true]
      exact ih hrest
    | true =>
      simp only [fileSkippedB, hc, Bool.not_true, Bool.false_or] at hf
      cases hp : parseDateToken (stripCsv name) with
      | none =>
        rw [hp] at hf
        simp at hf
      | some d =>
        rw [hp] at hf
        simp only [decide_eq_true_eq] at hf
        simp only [loadFold, hc, Bool.not_true, Bool.false_eq_true,
          if_false, hp]
        rw [if_pos hf]
        exact ih hrest

/-- Claim C5 (amended): when zero snapshot files pass the filename-pattern
and year filters, `load_all_csvs` raises (`pd.concat` with no objects)
rather than returning an empty table. -/
theorem c5_zero_matching_files_raises
    (files : List (String × List CsvRow))
    (h : ∀ f ∈ files, fileSkippedB f = true) :
    load_all_csvs files = .error "No objects to concatenate" := by
  unfold load_all_csvs
  rw [loadFold_all_skipped files h]

/-- Claim C5 counterexample: with zero matching files (here: an empty
directory), the Ingestion Normalizer raises instead of returning a valid
empty table. -/
theorem c5_counterexample :
    load_all_csvs ([] : List (String × List CsvRow)) =
      .error "No objects to concatenate" := by decide

/-- Witness for the amended C5: a listing whose two entries are skipped (a
non-`.csv` name and a 2020-dated file) makes the loader raise. -/
theorem c5_witness :
    load_all_csvs [("README.md", []), ("01-01-2020.csv", [])] =
      .error "No objects to concatenate" :=
  c5_zero_matching_files_raises _ (by decide)

theorem loadFold_skip_non_csv (name : String) (rows : List CsvRow)
    (h : isCsvName name = false) :
    ∀ pre post : List (String × List CsvRow),
      loadFold (pre ++ (name, rows) :: post) = loadFold (pre ++ post) := by
  intro pre
  induction pre with
  | nil =>
    intro post
    show loadFold ((name, rows) :: post) = loadFold post
    simp only [loadFold, h, Bool.not_false, if_true]
  | cons g pre ih =>
    intro post
    obtain ⟨gn, gr⟩ := g
    show loadFold ((gn, gr) :: (pre ++ (name, rows) :: post)) =
      loadFold ((gn, gr) :: (pre ++ post))
    cases hc : isCsvName gn with
    | false =>
      simp only [loadFold, hc, Bool.not_false, if_true]
      exact ih post
    | true =>
      cases hp : parseDateToken (stripCsv gn) with
      | none =>
        simp only [loadFold, hc, Bool.not_true, Bool.false_eq_true,
          if_false, hp]
      | some d =>
        by_cases hy : d.year < 2021 ∨ d.year > 2023
        · simp only [loadFold, hc, Bool.not_true, Bool.false_eq_true,
            if_false, hp]
          rw [if_pos hy, if_pos hy]
          exact ih post
        · simp only [loadFold, hc, Bool.not_true, Bool.false_eq_true,
            if_false, hp]
          rw [if_neg hy, if_neg hy, ih post]

/-- Claim C6 (amended): the loop silently skips filenames that do not end in
`.csv` (removing such an entry from the listing leaves the result
unchanged); but a `.csv` filename whose stem does not parse as `MM-DD-YYYY`
is not skipped — `strptime` raises, so the whole load errors. -/
theorem c6_filename_handling :
    (∀ (pre post : List (String × List CsvRow)) (name : String)
        (rows : List CsvRow), isCsvName name = false →
      load_all_csvs (pre ++ (name, rows) :: post) =
        load_all_csvs (pre ++ post)) ∧
    (∀ (name : String) (rows : List CsvRow)
        (files : List (String × List CsvRow)),
      isCsvName name = true → parseDateToken (stripCsv name) = none →
      load_all_csvs ((name, rows) :: files) =
        .error ("time data " ++ stripCsv name ++
          " does not match format %m-%d-%Y")) := by
  constructor
  · intro pre post name rows h
    unfold load_all_csvs
    rw [loadFold_skip_non_csv name rows h pre post]
  · intro name rows files hcsv hparse
    unfold load_all_csvs
    have hfold : loadFold ((name, rows) :: files) =
        .error ("time data " ++ stripCsv name ++
          " does not match format %m-%d-%Y") := by
      simp only [loadFold, hcsv, Bool.not_true, Bool.false_eq_true,
        if_false, hparse]
    rw [hfold]

/-- Claim C6 counterexample: a `.csv` filename with an unparseable date stem
makes the load raise a `ValueError` instead of being silently skipped. -/
theorem c6_counterexample :
    load_all_csvs [("notes.csv", [])] =
      .error "time data notes does not match format %m-%d-%Y" := by decide

/-- Witness for the amended C6: removing a non-`.csv` entry from a listing
changes nothing, and a bad `.csv` stem raises. -/
theorem c6_witness :
    load_all_csvs [("README.md", []), ("notes.csv", [])] =
      load_all_csvs [("notes.csv", [])] ∧
    load_all_csvs [("notes.csv", [])] =
      .error "time data notes does not match format %m-%d-%Y" :=
  ⟨c6_filename_handling.1 [] [("notes.csv", [])] "README.md" [] (by decide),
   c6_filename_handling.2 "notes.csv" [] [] (by decide) (by decide)⟩

theorem loadFold_sound :
    ∀ (files : List (String × List CsvRow))
      (frames : List (List RawRow)), loadFold files = .ok frames →
      ∀ frame ∈ frames, ∀ r ∈ frame,
        r.country ∈ TARGET_COUNTRIES ∧
        (r.report_date.year = 2021 ∨ r.report_date.year = 2022 ∨
          r.report_date.year = 2023) ∧
        ∃ f ∈ files, isCsvName f.1 = true ∧
          parseDateToken (stripCsv f.1) = some r.report_date := by
  intro files
  induction files with
  | nil =>
    intro frames h frame hframe r hr
    injection h with h2
    rw [← h2] at hframe
    simp at hframe
  | cons f rest ih =>
    intro frames h frame hframe r hr
    obtain ⟨name, rows⟩ := f
    cases hc : isCsvName name with
    | false =>
      simp only [loadFold, hc, Bool.not_false, if_true] at h
      rcases ih frames h frame hframe r hr with ⟨h1, h2, f2, hf2, hc2, hp2⟩
      exact ⟨h1, h2, f2, by simp [hf2], hc2, hp2⟩
    | true =>
      simp only [loadFold, hc, Bool.not_true, Bool.false_eq_true,
        if_false] at h
      cases hp : parseDateToken (stripCsv name) with
      | none =>
        simp only [hp] at h
        exact absurd h (by simp)
      | some d =>
        simp only [hp] at h
        by_cases hy : d.year < 2021 ∨ d.year > 2023
        · rw [if_pos hy] at h
          rcases ih frames h frame hframe r hr with ⟨h1, h2, f2, hf2, hc2, hp2⟩
          exact ⟨h1, h2, f2, by simp [hf2], hc2, hp2⟩
        · rw [if_neg hy] at h
          cases hrest : loadFold rest with
          | error e =>
            simp only [hrest] at h
            exact absurd h (by simp)
          | ok tail =>
            simp only [hrest] at h
            injection h with h2
            rw [← h2] at hframe
            rcases List.mem_cons.mp hframe with rfl | hframe2
            · rcases List.mem_map.mp hr with ⟨cr, hcr, rfl⟩
              rcases List.mem_filter.mp hcr with ⟨_, hctry⟩
              refine ⟨?_, ?_, (name, rows), by simp, hc, by rw [hp]⟩
              · have : TARGET_COUNTRIES.contains cr.country = true := hctry
                simpa using this
              · show d.year = 2021 ∨ d.year = 2022 ∨ d.year = 2023
                omega
            · rcases ih tail hrest frame hframe2 r hr with
                ⟨h1, h2, f2, hf2, hc2, hp2⟩
              exact ⟨h1, h2, f2, by simp [hf2], hc2, hp2⟩

/-- Claim C7: every row of a successful `load_all_csvs` run has a country in
the fixed 7-country allowlist, a report-date year in {2021, 2022, 2023},
and is tagged with the date parsed from the `.csv` filename it came from. -/
theorem c7_ingestion_output (files : List (String × List CsvRow))
    (out : List RawRow) (h : load_all_csvs files = .ok out) :
    ∀ r ∈ out, r.country ∈ TARGET_COUNTRIES ∧
      (r.report_date.year = 2021 ∨ r.report_date.year = 2022 ∨
        r.report_date.year = 2023) ∧
      ∃ f ∈ files, isCsvName f.1 = true ∧
        parseDateToken (stripCsv f.1) = some r.report_date := by
  intro r hr
  unfold load_all_csvs at h
  cases hfold : loadFold files with
  | error e =>
    rw [hfold] at h
    exact absurd h (by simp)
  | ok frames =>
    rw [hfold] at h
    cases frames with
    | nil => exact absurd h (by simp)
    | cons fr rest =>
      have hout : (fr :: rest).flatten = out := by injection h
      rw [← hout] at hr
      rcases List.mem_flatten.mp hr with ⟨frame, hframe, hrf⟩
      exact loadFold_sound files (fr :: rest) hfold frame hframe r hrf

/-- The single-file listing of the C7 witness. -/
def c7files : List (String × List CsvRow) :=
  [("01-02-2022.csv",
    [⟨some "P", "India", some 10, some 1, some 2, some 0, some 0⟩,
     ⟨none, "France", some 9, none, none, none, none⟩])]

/-- The row the C7 witness listing loads. -/
def c7row : RawRow :=
  ⟨some "P", "India", some 10, some 1, some 2, some 0, some 0, ⟨2022, 1, 2⟩⟩

/-- Witness for C7: the loaded row is allow-listed, in-window, and tagged
with the date parsed from its filename; the off-list France row is gone. -/
theorem c7_witness :
    c7row.country ∈ TARGET_COUNTRIES ∧
    (c7row.report_date.year = 2021 ∨ c7row.report_date.year = 2022 ∨
      c7row.report_date.year = 2023) ∧
    ∃ f ∈ c7files, isCsvName f.1 = true ∧
      parseDateToken (stripCsv f.1) = some c7row.report_date :=
  c7_ingestion_output c7files [c7row] (by decide) c7row (by decide)

end Covid
